import Mathlib

/-!
Verification development for the in-memory order book of this repository
(src/OrderBook.ts).  The TypeScript class is shallowly embedded: prices,
quantities and timestamps are rationals, the level array is a Lean list, and
each public method becomes a function.  Methods that can throw return the
post-state together with an optional error, mirroring the fact that a JS
exception leaves the partially mutated object behind (here the throw always
happens before the first mutation, so the returned state is the input state).
-/

/-- The side tag of a price level. -/
inductive Side where
  | Buy : Side
  | Sell : Side
deriving DecidableEq, Repr

/-- One row of the book, mirroring the [symbol, price, side, qty, extraState]
tuple of OrderBookLevel.  The extraState payload is carried untouched. -/
structure OrderBookLevel where
  symbol : String
  price : ℚ
  side : Side
  qty : ℚ
  extraState : Option String
deriving DecidableEq, Repr

/-- The OrderBookOptions bag: both entries may be omitted.  A number-typed
maxDepth is modelled as an integer. -/
structure OrderBookOptions where
  checkTimestamps : Option Bool
  maxDepth : Option Int
deriving DecidableEq, Repr

/-- The error taxonomy: the four failure modes the methods can throw. -/
inductive BookError where
  | StaleUpdateError : BookError
  | InvalidArgument : BookError
  | NoLiquidity : BookError
  | InsufficientLiquidity : BookError
deriving DecidableEq, Repr

/-- The mutable fields of the OrderBook class. -/
structure OrderBook where
  symbol : String
  book : List OrderBookLevel
  shouldCheckTimestamps : Bool
  lastUpdateTimestamp : ℚ
  maxDepth : Int
deriving DecidableEq, Repr

/-- The constructor: the book starts empty, shouldCheckTimestamps is
options.checkTimestamps === true, and maxDepth is options.maxDepth || 250,
so any falsy maxDepth (0 or omitted) falls back to 250.  The argument now
stands for new Date().getTime(). -/
def mkOrderBook (symbol : String) (options : OrderBookOptions) (now : ℚ) : OrderBook :=
  { symbol := symbol
    book := []
    shouldCheckTimestamps := decide (options.checkTimestamps = some true)
    lastUpdateTimestamp := now
    maxDepth :=
      match options.maxDepth with
      | none => 250
      | some d => if d = 0 then 250 else d }

/-- checkTimestamp throws (returns true here) iff timestamp checking is on and
the stored lastUpdateTimestamp is strictly greater than the incoming one. -/
def OrderBook.checkTimestampThrows (s : OrderBook) (timestamp : ℚ) : Bool :=
  s.shouldCheckTimestamps && decide (s.lastUpdateTimestamp > timestamp)

/-- findIndexForSlice: position of the first stored level whose price equals the
input level's price; none plays the role of the JS -1. -/
def findIndexForSlice (book : List OrderBookLevel) (level : OrderBookLevel) : Option Nat :=
  List.findIdx? (fun e => decide (e.price = level.price)) book

/-- The sort comparator (a, b) => b.price - a.price read as a total order:
a may come before b iff b.price ≤ a.price (highest price first). -/
def priceDescLe (a b : OrderBookLevel) : Bool :=
  decide (b.price ≤ a.price)

/-- sort(): stable full sort of the book, highest price first, lowest last. -/
def sortBook (book : List OrderBookLevel) : List OrderBookLevel :=
  book.mergeSort priceDescLe

/-- JS Array.prototype.splice(start, deleteCount) restricted to removal: start
is clamped into the array (a negative start counts from the end), deleteCount
is clamped to the room after start, and that window is removed. -/
def spliceRemove (l : List OrderBookLevel) (start deleteCount : Int) : List OrderBookLevel :=
  let len : Int := l.length
  let actualStart : Nat := (if start < 0 then max (len + start) 0 else min start len).toNat
  let actualDelete : Nat := (min (max deleteCount 0) (len - (actualStart : Int))).toNat
  l.take actualStart ++ l.drop (actualStart + actualDelete)

/-- trimSideCount: a no-op when totalToTrim ≤ 0; otherwise splice(0, totalToTrim)
when trimming the top, and splice(length - totalToTrim - 1, totalToTrim) when
trimming the bottom. -/
def trimSideCount (book : List OrderBookLevel) (totalToTrim : Int) (shouldTrimTop : Bool) :
    List OrderBookLevel :=
  if totalToTrim ≤ 0 then book
  else if shouldTrimTop then spliceRemove book 0 totalToTrim
  else spliceRemove book ((book.length : Int) - totalToTrim - 1) totalToTrim

/-- maxPerSide = +(maxDepth / 2).toFixed(0): round to the nearest integer,
taking the larger one at an exact half, i.e. the floor of (maxDepth + 1) / 2. -/
def maxPerSide (maxDepth : Int) : Int :=
  (maxDepth + 1).fdiv 2

/-- Sell count of the reduce in trimToMaxDepth: levels whose side is Sell. -/
def countSells (book : List OrderBookLevel) : Nat :=
  (book.filter (fun l => decide (l.side = Side.Sell))).length

/-- Buy count of the reduce in trimToMaxDepth: every non-Sell level. -/
def countBuys (book : List OrderBookLevel) : Nat :=
  (book.filter (fun l => decide (l.side ≠ Side.Sell))).length

/-- trimToMaxDepth: nothing happens while the book fits in maxDepth; otherwise
sort descending, then trim buysToTrim entries near the bottom and sellsToTrim
entries from the top, with maxPerSide = round(maxDepth / 2). -/
def OrderBook.trimToMaxDepth (s : OrderBook) : OrderBook :=
  if (s.book.length : Int) ≤ s.maxDepth then s
  else
    let buysToTrim : Int := (countBuys s.book : Int) - maxPerSide s.maxDepth
    let sellsToTrim : Int := (countSells s.book : Int) - maxPerSide s.maxDepth
    let sorted := sortBook s.book
    let afterBuys := trimSideCount sorted buysToTrim false
    let afterSells := trimSideCount afterBuys sellsToTrim true
    { s with book := afterSells }

/-- handleSnapshot: validate the timestamp (a throw leaves the object as it
was), replace the book wholesale, trim, sort, and record the timestamp. -/
def OrderBook.handleSnapshot (s : OrderBook) (data : List OrderBookLevel) (timestamp : ℚ) :
    OrderBook × Option BookError :=
  if s.checkTimestampThrows timestamp then (s, some BookError.StaleUpdateError)
  else
    let s1 : OrderBook := { s with book := data }
    let s2 := s1.trimToMaxDepth
    let s3 : OrderBook := { s2 with book := sortBook s2.book }
    ({ s3 with lastUpdateTimestamp := timestamp }, none)

/-- One deleteDelta step: remove the level found by price, else do nothing. -/
def applyDeleteLevel (book : List OrderBookLevel) (level : OrderBookLevel) :
    List OrderBookLevel :=
  match findIndexForSlice book level with
  | some i => book.eraseIdx i
  | none => book

/-- One upsertDelta step: replace the level found by price in place, else
append it at the end. -/
def applyUpsertLevel (book : List OrderBookLevel) (level : OrderBookLevel) :
    List OrderBookLevel :=
  match findIndexForSlice book level with
  | some i => book.set i level
  | none => book ++ [level]

/-- One insertDelta step: replace the level found by price in place when
present, and in every case push the level at the end as well (the
duplicate-append-on-hit behaviour). -/
def applyInsertLevel (book : List OrderBookLevel) (level : OrderBookLevel) :
    List OrderBookLevel :=
  match findIndexForSlice book level with
  | some i => book.set i level ++ [level]
  | none => book ++ [level]

/-- handleDelta: validate the timestamp first (a throw leaves the object as it
was and no batch runs); then apply the delete, upsert and insert batches in
that order, each batch left to right; then trim, sort and record the
timestamp. -/
def OrderBook.handleDelta (s : OrderBook)
    (deleteDelta upsertDelta insertDelta : List OrderBookLevel) (timestamp : ℚ) :
    OrderBook × Option BookError :=
  if s.checkTimestampThrows timestamp then (s, some BookError.StaleUpdateError)
  else
    let b1 := deleteDelta.foldl applyDeleteLevel s.book
    let b2 := upsertDelta.foldl applyUpsertLevel b1
    let b3 := insertDelta.foldl applyInsertLevel b2
    let s1 : OrderBook := { s with book := b3 }
    let s2 := s1.trimToMaxDepth
    let s3 : OrderBook := { s2 with book := sortBook s2.book }
    ({ s3 with lastUpdateTimestamp := timestamp }, none)

/-- The sell sublist getBestAsk filters out of the book, in stored order. -/
def OrderBook.sellSide (s : OrderBook) : List OrderBookLevel :=
  s.book.filter (fun e => decide (e.side = Side.Sell))

/-- The buy sublist getBestBid filters out of the book, in stored order. -/
def OrderBook.buySide (s : OrderBook) : List OrderBookLevel :=
  s.book.filter (fun e => decide (e.side = Side.Buy))

/-- getBestAsk: filter the sells, compute index = sellSide.length - 1 - offset,
and read the entry at Math.abs(index); null when that position is out of
range. -/
def OrderBook.getBestAsk (s : OrderBook) (offset : Int) : Option ℚ :=
  let index : Int := (s.sellSide.length : Int) - 1 - offset
  Option.map OrderBookLevel.price s.sellSide[index.natAbs]?

/-- getBestBid: filter the buys and read the entry at Math.abs(offset); null
when that position is out of range. -/
def OrderBook.getBestBid (s : OrderBook) (offset : Int) : Option ℚ :=
  Option.map OrderBookLevel.price s.buySide[offset.natAbs]?

/-- getSpreadPercent: (1 - bid/ask) * 100, but null when either best price is
missing or — the JS falsy test — equal to zero. -/
def OrderBook.getSpreadPercent (s : OrderBook) (n : Int) : Option ℚ :=
  match s.getBestAsk n, s.getBestBid n with
  | some ask, some bid =>
      if bid = 0 ∨ ask = 0 then none else some ((1 - bid / ask) * 100)
  | _, _ => none

/-- getSpreadBasisPoints: (1 - bid/ask) * 10000 under the same null rules. -/
def OrderBook.getSpreadBasisPoints (s : OrderBook) (n : Int) : Option ℚ :=
  match s.getBestAsk n, s.getBestBid n with
  | some ask, some bid =>
      if bid = 0 ∨ ask = 0 then none else some ((1 - bid / ask) * 10000)
  | _, _ => none

/-- The record returned by a successful slippage estimate. -/
structure SlippageResult where
  executionPrice : ℚ
  slippagePercent : ℚ
  slippageBasisPoints : ℚ
deriving DecidableEq, Repr

/-- The fill loop of getEstimatedSlippage: consume min(remaining, qty) from each
level, accumulate cost, and stop once remaining ≤ 0.  Returns the final
(remaining, totalCost) pair. -/
def fillWalk : List OrderBookLevel → ℚ → ℚ → ℚ × ℚ
  | [], remainingSize, totalCost => (remainingSize, totalCost)
  | level :: rest, remainingSize, totalCost =>
    let fillQty := min remainingSize level.qty
    let newCost := totalCost + fillQty * level.price
    let newRemaining := remainingSize - fillQty
    if newRemaining ≤ 0 then (newRemaining, newCost)
    else fillWalk rest newRemaining newCost

/-- The slippage comparator: price ascending for a Buy order, descending for a
Sell order. -/
def slippageLe (side : Side) (a b : OrderBookLevel) : Bool :=
  match side with
  | Side.Buy => decide (a.price ≤ b.price)
  | Side.Sell => decide (b.price ≤ a.price)

/-- The side whose liquidity a market order consumes. -/
def oppositeSide : Side → Side
  | Side.Buy => Side.Sell
  | Side.Sell => Side.Buy

/-- The opposite side's levels filtered out of the book for the slippage walk
(the relevantLevels binding of getEstimatedSlippage). -/
def relevantLevels (s : OrderBook) (side : Side) : List OrderBookLevel :=
  s.book.filter (fun l => decide (l.side = oppositeSide side))

/-- The sorted copy of relevantLevels the fill walk consumes (the
sortedLevels binding of getEstimatedSlippage). -/
def sortedLevels (s : OrderBook) (side : Side) : List OrderBookLevel :=
  (relevantLevels s side).mergeSort (slippageLe side)

/-- The reference price slippage is quoted against: getBestAsk() for a Buy,
getBestBid() for a Sell, both at offset 0. -/
def referencePrice (s : OrderBook) : Side → Option ℚ
  | Side.Buy => s.getBestAsk 0
  | Side.Sell => s.getBestBid 0

/-- The slippage percentage formula: against the best ask for a Buy (execution
above best), against the best bid for a Sell (execution below best). -/
def slippagePercentOf (side : Side) (executionPrice bestPrice : ℚ) : ℚ :=
  match side with
  | Side.Buy => (executionPrice / bestPrice - 1) * 100
  | Side.Sell => (bestPrice / executionPrice - 1) * 100

/-- getEstimatedSlippage: reject a non-positive size, take the opposite side's
levels (empty means no liquidity), sort them for the walk, run the fill loop,
reject when liquidity ran out, and otherwise report execution price and
slippage against the reference price at offset 0 — null when that reference
price is missing or (falsy test) zero. -/
def OrderBook.getEstimatedSlippage (s : OrderBook) (baseOrderSize : ℚ) (side : Side) :
    Except BookError (Option SlippageResult) :=
  if baseOrderSize ≤ 0 then Except.error BookError.InvalidArgument
  else if (relevantLevels s side).length = 0 then Except.error BookError.NoLiquidity
  else
    let walk := fillWalk (sortedLevels s side) baseOrderSize 0
    if 0 < walk.1 then Except.error BookError.InsufficientLiquidity
    else
      let executionPrice := walk.2 / baseOrderSize
      match referencePrice s side with
      | none => Except.ok none
      | some bestPrice =>
        if bestPrice = 0 then Except.ok none
        else
          let slippagePercent := slippagePercentOf side executionPrice bestPrice
          Except.ok (some
            { executionPrice := executionPrice
              slippagePercent := slippagePercent
              slippageBasisPoints := slippagePercent * 100 })

/-- A mutating public call, carrying its timestamp. -/
inductive BookCall where
  | snapshot (data : List OrderBookLevel) (timestamp : ℚ) : BookCall
  | delta (deleteDelta upsertDelta insertDelta : List OrderBookLevel) (timestamp : ℚ) : BookCall

/-- The timestamp argument of a mutating call. -/
def BookCall.timestamp : BookCall → ℚ
  | BookCall.snapshot _ t => t
  | BookCall.delta _ _ _ t => t

/-- Dispatch one mutating call against a state. -/
def applyCall (s : OrderBook) : BookCall → OrderBook × Option BookError
  | BookCall.snapshot data t => s.handleSnapshot data t
  | BookCall.delta d u i t => s.handleDelta d u i t

/-- Run a sequence of mutating calls, keeping the (possibly unchanged) state a
throwing call leaves behind. -/
def runCalls (s : OrderBook) (calls : List BookCall) : OrderBook :=
  calls.foldl (fun st c => (applyCall st c).1) s

/-- The book is sorted by price descending (buys and sells interleaved). -/
def SortedDesc (book : List OrderBookLevel) : Prop :=
  List.Pairwise (fun a b => b.price ≤ a.price) book

deriving instance DecidableEq for Except

unseal List.merge List.mergeSort

/-- A fixed sample level used by the concrete instances below. -/
def mkLevel (price qty : ℚ) (side : Side) : OrderBookLevel :=
  { symbol := "BTCUSD", price := price, side := side, qty := qty, extraState := none }

/-- A book state with the given levels and depth cap, timestamp checking off. -/
def mkState (book : List OrderBookLevel) (maxDepth : Int) : OrderBook :=
  { symbol := "BTCUSD", book := book, shouldCheckTimestamps := false
    lastUpdateTimestamp := 0, maxDepth := maxDepth }

/-- A state with timestamp checking on and lastUpdateTimestamp 2. -/
def stC4 : OrderBook :=
  { symbol := "BTCUSD", book := [mkLevel 5 1 Side.Buy], shouldCheckTimestamps := true
    lastUpdateTimestamp := 2, maxDepth := 250 }

/-- A state holding three sells at prices 3, 2, 1 (stored descending). -/
def cexC2 : OrderBook :=
  mkState [mkLevel 3 1 Side.Sell, mkLevel 2 1 Side.Sell, mkLevel 1 1 Side.Sell] 250

/-- A book whose best bid price is 0 and best ask price is 1. -/
def cexC8 : OrderBook :=
  mkState [mkLevel 1 1 Side.Sell, mkLevel 0 1 Side.Buy] 250

/-- A book with best bid 99 and best ask 101, the spec's spread example. -/
def stC8w : OrderBook :=
  mkState [mkLevel 101 1 Side.Sell, mkLevel 99 1 Side.Buy] 250

/-- Four buy levels, already in descending price order. -/
def dataC3 : List OrderBookLevel :=
  [mkLevel 4 1 Side.Buy, mkLevel 3 1 Side.Buy, mkLevel 2 1 Side.Buy, mkLevel 1 1 Side.Buy]

/-- A one-level book about to receive an insert at the same price 5. -/
def stC6 : OrderBook := mkState [mkLevel 5 1 Side.Buy] 250

/-- The inserted level: price 5 again, new quantity 7. -/
def lvlC6 : OrderBookLevel := mkLevel 5 7 Side.Buy

/-- A book with a single sell level of quantity 5, the spec's insufficient
liquidity example (Buy order of size 10). -/
def stC5 : OrderBook := mkState [mkLevel 100 5 Side.Sell] 250

/-- The book a delta call assembles before trimming and sorting: the three
batches folded over the stored book. -/
def deltaBook (s : OrderBook) (d u i : List OrderBookLevel) : List OrderBookLevel :=
  List.foldl applyInsertLevel (List.foldl applyUpsertLevel
    (List.foldl applyDeleteLevel s.book d) u) i

/-- Two sells above two buys: four levels against maxDepth 1. -/
def dataC1 : List OrderBookLevel :=
  [mkLevel 4 1 Side.Sell, mkLevel 3 1 Side.Sell, mkLevel 2 1 Side.Buy, mkLevel 1 1 Side.Buy]

/-- The book produced by a snapshot of the two sell levels {price 100, qty 5}
and {price 101, qty 5}. -/
def stC9 : OrderBook :=
  ((mkState [] 250).handleSnapshot
    [mkLevel 100 5 Side.Sell, mkLevel 101 5 Side.Sell] 1).1

/-! ### Generic facts about the sort -/

lemma priceDescLe_trans (a b c : OrderBookLevel) (hab : priceDescLe a b = true)
    (hbc : priceDescLe b c = true) : priceDescLe a c = true := by
  simp only [priceDescLe, decide_eq_true_eq] at hab hbc ⊢
  exact le_trans hbc hab

lemma priceDescLe_total (a b : OrderBookLevel) :
    (priceDescLe a b || priceDescLe b a) = true := by
  simp only [priceDescLe, Bool.or_eq_true, decide_eq_true_eq]
  exact le_total b.price a.price

lemma sortBook_sortedDesc (b : List OrderBookLevel) : SortedDesc (sortBook b) := by
  have h := List.sorted_mergeSort priceDescLe_trans priceDescLe_total b
  exact h.imp (fun hab => by simpa [priceDescLe] using hab)

lemma sortBook_perm (b : List OrderBookLevel) : (sortBook b).Perm b :=
  List.mergeSort_perm b priceDescLe

lemma sortBook_length (b : List OrderBookLevel) : (sortBook b).length = b.length :=
  List.length_mergeSort b

/-! ### C7: the sort invariant -/

lemma sortedDesc_applyCall (s : OrderBook) (c : BookCall) (h : SortedDesc s.book) :
    SortedDesc (applyCall s c).1.book := by
  cases c with
  | snapshot data t =>
    simp only [applyCall, OrderBook.handleSnapshot]
    split
    · exact h
    · exact sortBook_sortedDesc _
  | delta d u i t =>
    simp only [applyCall, OrderBook.handleDelta]
    split
    · exact h
    · exact sortBook_sortedDesc _

lemma sortedDesc_runCalls (s : OrderBook) (calls : List BookCall)
    (h : SortedDesc s.book) : SortedDesc (runCalls s calls).book := by
  induction calls generalizing s with
  | nil => exact h
  | cons c cs ih => exact ih (applyCall s c).1 (sortedDesc_applyCall s c h)

/-- C7: starting from a fresh book, after any sequence of handleSnapshot and
handleDelta calls (with any inputs, failing calls included) the stored levels
are sorted by price in descending order, buys and sells interleaved. -/
theorem C7_sort_invariant (symbol : String) (options : OrderBookOptions) (now : ℚ)
    (calls : List BookCall) :
    SortedDesc (runCalls (mkOrderBook symbol options now) calls).book :=
  sortedDesc_runCalls _ calls List.Pairwise.nil

/-! ### C10: the constructor -/

/-- C10: a falsy maxDepth option (0 or omitted) yields the default depth cap
250, timestamp checking is on exactly when the option is the value true, and
no options can produce a depth cap of 0. -/
theorem C10_constructor_defaults (symbol : String) (options : OrderBookOptions)
    (now : ℚ) :
    ((options.maxDepth = none ∨ options.maxDepth = some 0) →
      (mkOrderBook symbol options now).maxDepth = 250) ∧
    ((mkOrderBook symbol options now).shouldCheckTimestamps = true ↔
      options.checkTimestamps = some true) ∧
    (mkOrderBook symbol options now).maxDepth ≠ 0 := by
  refine ⟨?_, ?_, ?_⟩
  · rintro (h | h) <;> simp [mkOrderBook, h]
  · simp [mkOrderBook]
  · rcases hmd : options.maxDepth with _ | d
    · simp [mkOrderBook, hmd]
    · by_cases hd : d = 0 <;> simp [mkOrderBook, hmd, hd]

theorem C10_witness :
    (mkOrderBook "BTCUSD" { checkTimestamps := some true, maxDepth := some 0 } 0).maxDepth
      = 250 :=
  (C10_constructor_defaults "BTCUSD" { checkTimestamps := some true, maxDepth := some 0 } 0).1
    (Or.inr rfl)

/-! ### C4: timestamp monotonicity -/

/-- C4: with timestamp checking on, a mutating call whose timestamp is strictly
older than lastUpdateTimestamp throws StaleUpdateError and leaves the whole
state — levels and lastUpdateTimestamp — exactly as it was, while a call whose
timestamp equals lastUpdateTimestamp does not throw. -/
theorem C4_stale_update_rejected (s : OrderBook) (c : BookCall)
    (hcheck : s.shouldCheckTimestamps = true) :
    (c.timestamp < s.lastUpdateTimestamp →
      applyCall s c = (s, some BookError.StaleUpdateError)) ∧
    (c.timestamp = s.lastUpdateTimestamp → (applyCall s c).2 = none) := by
  constructor
  · intro hlt
    cases c with
    | snapshot data t =>
      simp only [BookCall.timestamp] at hlt
      simp [applyCall, OrderBook.handleSnapshot, OrderBook.checkTimestampThrows, hcheck, hlt]
    | delta d u i t =>
      simp only [BookCall.timestamp] at hlt
      simp [applyCall, OrderBook.handleDelta, OrderBook.checkTimestampThrows, hcheck, hlt]
  · intro heq
    cases c with
    | snapshot data t =>
      simp only [BookCall.timestamp] at heq
      simp [applyCall, OrderBook.handleSnapshot, OrderBook.checkTimestampThrows, hcheck, heq,
        lt_irrefl]
    | delta d u i t =>
      simp only [BookCall.timestamp] at heq
      simp [applyCall, OrderBook.handleDelta, OrderBook.checkTimestampThrows, hcheck, heq,
        lt_irrefl]

theorem C4_witness :
    applyCall stC4 (BookCall.snapshot [] 1) = (stC4, some BookError.StaleUpdateError) :=
  (C4_stale_update_rejected stC4 (BookCall.snapshot [] 1) rfl).1 (by decide)

/-! ### C2: getBestAsk offset handling -/

/-- C2 counterexample: with three sell levels, the offset 4 exceeds the range
of the sell sublist yet getBestAsk returns a price (the claim demands null),
and the negative offset -1 returns null instead of behaving like offset 1. -/
theorem C2_counterexample :
    cexC2.sellSide.length = 3 ∧
    cexC2.getBestAsk 4 = some 1 ∧
    cexC2.getBestAsk (-1) = none ∧
    cexC2.getBestAsk 1 = some 2 := by
  with_unfolding_all decide

/-- C2 amended: getBestAsk reads the sell sublist at index
|sellSide.length - 1 - offset|.  Hence it returns null whenever there are no
sell levels; every negative offset returns null (rather than acting as its
absolute value); for a non-negative offset the result is null exactly when
offset ≥ 2·sellSide.length - 1 (not as soon as the offset exceeds the range);
and on the in-range offsets 0 ≤ offset < sellSide.length it returns the price
stored at position sellSide.length - 1 - offset. -/
theorem C2_amended_getBestAsk (s : OrderBook) (offset : Int) :
    (s.sellSide = [] → s.getBestAsk offset = none) ∧
    (offset < 0 → s.getBestAsk offset = none) ∧
    (0 ≤ offset →
      (s.getBestAsk offset = none ↔ 2 * (s.sellSide.length : Int) - 1 ≤ offset)) ∧
    (0 ≤ offset → offset < (s.sellSide.length : Int) →
      s.getBestAsk offset = Option.map OrderBookLevel.price
        s.sellSide[((s.sellSide.length : Int) - 1 - offset).toNat]?) := by
  refine ⟨?_, ?_, ?_, ?_⟩
  · intro hempty
    simp [OrderBook.getBestAsk, hempty]
  · intro hneg
    have hout : s.sellSide.length ≤ ((s.sellSide.length : Int) - 1 - offset).natAbs := by
      omega
    simp [OrderBook.getBestAsk, Option.map_eq_none', List.getElem?_eq_none_iff, hout]
  · intro hpos
    rw [OrderBook.getBestAsk, Option.map_eq_none', List.getElem?_eq_none_iff]
    omega
  · intro hpos hlt
    have habs : ((s.sellSide.length : Int) - 1 - offset).natAbs
        = ((s.sellSide.length : Int) - 1 - offset).toNat := by
      omega
    rw [OrderBook.getBestAsk, habs]

/-- C2 witness: the amended in-range clause evaluated on the three-sell book at
offset 1 yields the second-lowest sell price. -/
theorem C2_witness : cexC2.getBestAsk 1 = some 2 := by
  have h := (C2_amended_getBestAsk cexC2 1).2.2.2 (by decide) (by with_unfolding_all decide)
  rw [h]
  with_unfolding_all decide

/-! ### C8: the spread queries -/

/-- C8 counterexample: both sides are present at offset 0 (best bid 0, best
ask 1), yet both spread queries return null because the zero bid price fails
the JS falsy test — the claim says null happens exactly when a side is
absent. -/
theorem C8_counterexample :
    cexC8.getBestBid 0 = some 0 ∧
    cexC8.getBestAsk 0 = some 1 ∧
    cexC8.getSpreadPercent 0 = none ∧
    cexC8.getSpreadBasisPoints 0 = none := by
  with_unfolding_all decide

/-- C8 amended: spreadPercent(n) is (1 - bid/ask) * 100 and
spreadBasisPoints(n) is (1 - bid/ask) * 10000 whenever both reference prices
exist and neither is zero, and both queries return null exactly when a side
is absent at that offset or its reference price equals zero. -/
theorem C8_amended_spread (s : OrderBook) (n : Int) :
    (s.getSpreadPercent n = none ↔
      s.getBestBid n = none ∨ s.getBestBid n = some 0 ∨
      s.getBestAsk n = none ∨ s.getBestAsk n = some 0) ∧
    (s.getSpreadBasisPoints n = none ↔
      s.getBestBid n = none ∨ s.getBestBid n = some 0 ∨
      s.getBestAsk n = none ∨ s.getBestAsk n = some 0) ∧
    (∀ bid ask, s.getBestBid n = some bid → s.getBestAsk n = some ask →
      bid ≠ 0 → ask ≠ 0 →
      s.getSpreadPercent n = some ((1 - bid / ask) * 100) ∧
      s.getSpreadBasisPoints n = some ((1 - bid / ask) * 10000)) := by
  refine ⟨?_, ?_, ?_⟩
  · rcases ha : s.getBestAsk n with _ | ask <;> rcases hb : s.getBestBid n with _ | bid <;>
      simp [OrderBook.getSpreadPercent, ha, hb] <;> by_cases hb0 : bid = 0 <;>
      by_cases ha0 : ask = 0 <;> simp [hb0, ha0]
  · rcases ha : s.getBestAsk n with _ | ask <;> rcases hb : s.getBestBid n with _ | bid <;>
      simp [OrderBook.getSpreadBasisPoints, ha, hb] <;> by_cases hb0 : bid = 0 <;>
      by_cases ha0 : ask = 0 <;> simp [hb0, ha0]
  · intro bid ask hb ha hb0 ha0
    constructor
    · simp [OrderBook.getSpreadPercent, ha, hb, hb0, ha0]
    · simp [OrderBook.getSpreadBasisPoints, ha, hb, hb0, ha0]

/-- C8 witness: on the bid-99 / ask-101 book the amended formula clause gives
the spread values concretely. -/
theorem C8_witness :
    stC8w.getSpreadPercent 0 = some ((1 - (99 : ℚ) / 101) * 100) ∧
    stC8w.getSpreadBasisPoints 0 = some ((1 - (99 : ℚ) / 101) * 10000) :=
  (C8_amended_spread stC8w 0).2.2 99 101 (by with_unfolding_all decide)
    (by with_unfolding_all decide) (by norm_num) (by norm_num)

/-! ### C3: the buy-side trim window -/

/-- C3: the failing input evaluated.  With maxDepth 2 the trimmer computes
buysToTrim = 3, and splice(length - 3 - 1, 3) removes the three entries at
indices 0..2 of the descending sequence, keeping only the lowest-price buy —
the claim (and the code's own comment) demand removal of the three entries at
the highest indices, which would keep the price-4 level instead. -/
theorem C3_trim_bug_behaviour :
    (mkState [] 2).maxDepth = 2 ∧
    countBuys dataC3 = 4 ∧
    (((mkState [] 2).handleSnapshot dataC3 1).1.book.map OrderBookLevel.price = [1]) := by
  with_unfolding_all decide

/-! ### C6: the insert duplication quirk -/

lemma applyInsertLevel_found (book : List OrderBookLevel) (level : OrderBookLevel)
    (hone : (book.filter (fun l => decide (l.price = level.price))).length = 1) :
    (applyInsertLevel book level).length = book.length + 1 ∧
    ((applyInsertLevel book level).filter
      (fun l => decide (l.price = level.price))).length = 2 ∧
    2 ≤ List.countP (fun l => decide (l = level)) (applyInsertLevel book level) := by
  rcases hidx : findIndexForSlice book level with _ | i
  · rw [findIndexForSlice, List.findIdx?_eq_none_iff] at hidx
    have hnil : book.filter (fun l => decide (l.price = level.price)) = [] :=
      List.filter_eq_nil_iff.mpr (fun a ha => by simpa using hidx a ha)
    rw [hnil] at hone
    simp at hone
  · have hidx' := hidx
    rw [findIndexForSlice] at hidx'
    obtain ⟨hilt, hfind⟩ := List.findIdx?_eq_some_iff_findIdx_eq.mp hidx'
    have hpi : decide (book[i].price = level.price) = true := by
      subst hfind
      simpa using @List.findIdx_getElem _ (fun e => decide (e.price = level.price)) book hilt
    have hcount : List.countP (fun l => decide (l.price = level.price)) book = 1 := by
      rw [List.countP_eq_length_filter]
      exact hone
    have hset : List.countP (fun l => decide (l.price = level.price)) (book.set i level) = 1 := by
      rw [List.countP_set _ book i level hilt]
      simp only [hpi, if_true, hcount]
      simp
    refine ⟨?_, ?_, ?_⟩
    · simp [applyInsertLevel, hidx]
    · rw [← List.countP_eq_length_filter]
      simp only [applyInsertLevel, hidx, List.countP_append, hset]
      simp
    · have hilt' : i < (book.set i level).length := by
        simpa using hilt
      have hmem : level ∈ book.set i level := by
        rw [List.mem_iff_getElem]
        exact ⟨i, hilt', @List.getElem_set_self _ book i level hilt'⟩
      have hsetc : 0 < List.countP (fun l => decide (l = level)) (book.set i level) :=
        List.countP_pos.mpr ⟨level, hmem, by simp⟩
      have hcons : List.countP (fun l => decide (l = level)) [level] = 1 := by simp
      simp only [applyInsertLevel, hidx, List.countP_append, hcons]
      omega

/-- C6: in a state whose book stores exactly one level at the inserted price
and whose maxDepth leaves room for one more level (so no trimming masks it),
a handleDelta call whose insert batch is that one level succeeds, leaves two
entries at that price in the book (at least two of them being that very
level), and grows the book length by one. -/
theorem C6_insert_duplication (s : OrderBook) (level : OrderBookLevel) (ts : ℚ)
    (hone : (s.book.filter (fun l => decide (l.price = level.price))).length = 1)
    (hdepth : (s.book.length : Int) + 1 ≤ s.maxDepth)
    (hts : s.checkTimestampThrows ts = false) :
    (s.handleDelta [] [] [level] ts).2 = none ∧
    ((s.handleDelta [] [] [level] ts).1.book.filter
      (fun l => decide (l.price = level.price))).length = 2 ∧
    (s.handleDelta [] [] [level] ts).1.book.length = s.book.length + 1 ∧
    2 ≤ List.countP (fun l => decide (l = level)) (s.handleDelta [] [] [level] ts).1.book := by
  obtain ⟨hlen, hfilter, hcnt⟩ := applyInsertLevel_found s.book level hone
  have hfit : ((applyInsertLevel s.book level).length : Int) ≤ s.maxDepth := by
    rw [hlen]
    push_cast
    omega
  have hres : s.handleDelta [] [] [level] ts
      = (⟨s.symbol, sortBook (applyInsertLevel s.book level), s.shouldCheckTimestamps,
          ts, s.maxDepth⟩, none) := by
    simp only [OrderBook.handleDelta, hts, Bool.false_eq_true, if_false, List.foldl_nil,
      List.foldl_cons, OrderBook.trimToMaxDepth]
    rw [if_pos]
    exact hfit
  rw [hres]
  have hperm := sortBook_perm (applyInsertLevel s.book level)
  refine ⟨rfl, ?_, ?_, ?_⟩
  · rw [← List.countP_eq_length_filter, hperm.countP_eq, List.countP_eq_length_filter]
    exact hfilter
  · simpa [sortBook_length] using hlen
  · calc 2 ≤ List.countP (fun l => decide (l = level)) (applyInsertLevel s.book level) := hcnt
      _ = _ := (hperm.countP_eq _).symm

theorem C6_witness :
    ((stC6.handleDelta [] [] [lvlC6] 1).1.book.filter
      (fun l => decide (l.price = lvlC6.price))).length = 2 ∧
    (stC6.handleDelta [] [] [lvlC6] 1).1.book.length = stC6.book.length + 1 :=
  ⟨(C6_insert_duplication stC6 lvlC6 1 (by with_unfolding_all decide) (by decide)
      (by decide)).2.1,
   (C6_insert_duplication stC6 lvlC6 1 (by with_unfolding_all decide) (by decide)
      (by decide)).2.2.1⟩

/-! ### C5: the slippage error conditions -/

lemma fillWalk_fst (ls : List OrderBookLevel) (r c : ℚ) (hr : 0 ≤ r)
    (hq : ∀ l ∈ ls, 0 ≤ l.qty) :
    (fillWalk ls r c).1 = max (r - (ls.map OrderBookLevel.qty).sum) 0 := by
  induction ls generalizing r c with
  | nil =>
    simp only [fillWalk, List.map_nil, List.sum_nil, sub_zero]
    exact (max_eq_left hr).symm
  | cons l ls ih =>
    have hql : 0 ≤ l.qty := hq l (List.mem_cons_self l ls)
    have hqs : ∀ x ∈ ls, 0 ≤ x.qty := fun x hx => hq x (List.mem_cons_of_mem l hx)
    have hsum : 0 ≤ (ls.map OrderBookLevel.qty).sum := by
      apply List.sum_nonneg
      intro x hx
      obtain ⟨y, hy, rfl⟩ := List.mem_map.mp hx
      exact hqs y hy
    simp only [fillWalk, List.map_cons, List.sum_cons]
    by_cases hstop : r - min r l.qty ≤ 0
    · rw [if_pos hstop]
      have h1 : min r l.qty ≤ r := min_le_left _ _
      have h2 : min r l.qty ≤ l.qty := min_le_right _ _
      have hz : r - min r l.qty = 0 := le_antisymm hstop (by linarith)
      have hle : r - (l.qty + (ls.map OrderBookLevel.qty).sum) ≤ 0 := by linarith
      rw [hz]
      exact (max_eq_right hle).symm
    · rw [if_neg hstop]
      push_neg at hstop
      have hmin : min r l.qty = l.qty := by
        rcases le_total r l.qty with h | h
        · rw [min_eq_left h] at hstop
          linarith
        · exact min_eq_right h
      rw [hmin] at hstop ⊢
      rw [ih (r - l.qty) (c + l.qty * l.price) (by linarith) hqs]
      congr 1
      ring

lemma slippage_classify (s : OrderBook) (sz : ℚ) (side : Side) :
    (s.getEstimatedSlippage sz side = Except.error BookError.InvalidArgument ↔ sz ≤ 0) ∧
    (s.getEstimatedSlippage sz side = Except.error BookError.NoLiquidity ↔
      ¬ sz ≤ 0 ∧ relevantLevels s side = []) ∧
    (s.getEstimatedSlippage sz side = Except.error BookError.InsufficientLiquidity ↔
      ¬ sz ≤ 0 ∧ relevantLevels s side ≠ [] ∧
        0 < (fillWalk (sortedLevels s side) sz 0).1) := by
  by_cases h1 : sz ≤ 0
  · simp [OrderBook.getEstimatedSlippage, h1]
  · by_cases h2 : (relevantLevels s side).length = 0
    · rw [List.length_eq_zero] at h2
      simp [OrderBook.getEstimatedSlippage, h1, h2]
    · have h2' : relevantLevels s side ≠ [] := by
        intro hnil
        rw [hnil] at h2
        simp at h2
      by_cases h3 : 0 < (fillWalk (sortedLevels s side) sz 0).1
      · simp [OrderBook.getEstimatedSlippage, h1, h2, h2', h3]
      · rcases hbp : referencePrice s side with _ | bp
        · simp [OrderBook.getEstimatedSlippage, h1, h2, h2', h3, hbp]
        · by_cases hbp0 : bp = 0 <;>
            simp [OrderBook.getEstimatedSlippage, h1, h2, h2', h3, hbp, hbp0]

/-- C5: getEstimatedSlippage throws InvalidArgument exactly on a non-positive
order size; for a positive size it throws NoLiquidity exactly when the
opposite side has no levels; and for a positive size, a non-empty opposite
side and non-negative level quantities it throws InsufficientLiquidity
exactly when the opposite side's total quantity is below the order size.  (The
method only reads the book — the embedding returns no state because the
source never assigns to it.) -/
theorem C5_slippage_error_conditions (s : OrderBook) (orderSize : ℚ) (side : Side) :
    (s.getEstimatedSlippage orderSize side = Except.error BookError.InvalidArgument ↔
      orderSize ≤ 0) ∧
    (0 < orderSize →
      (s.getEstimatedSlippage orderSize side = Except.error BookError.NoLiquidity ↔
        relevantLevels s side = [])) ∧
    (0 < orderSize → (∀ l ∈ relevantLevels s side, 0 ≤ l.qty) →
      relevantLevels s side ≠ [] →
      (s.getEstimatedSlippage orderSize side = Except.error BookError.InsufficientLiquidity ↔
        ((relevantLevels s side).map OrderBookLevel.qty).sum < orderSize)) := by
  obtain ⟨hIA, hNL, hIL⟩ := slippage_classify s orderSize side
  refine ⟨hIA, ?_, ?_⟩
  · intro hpos
    rw [hNL]
    constructor
    · rintro ⟨_, h⟩
      exact h
    · intro h
      exact ⟨not_le.mpr hpos, h⟩
  · intro hpos hq hne
    rw [hIL]
    have hqsorted : ∀ l ∈ sortedLevels s side, 0 ≤ l.qty := by
      intro l hl
      exact hq l ((List.mergeSort_perm (relevantLevels s side) (slippageLe side)).mem_iff.mp hl)
    have hsum : ((sortedLevels s side).map OrderBookLevel.qty).sum
        = ((relevantLevels s side).map OrderBookLevel.qty).sum :=
      ((List.mergeSort_perm (relevantLevels s side) (slippageLe side)).map
        OrderBookLevel.qty).sum_eq
    have hwalk : (fillWalk (sortedLevels s side) orderSize 0).1
        = max (orderSize - ((relevantLevels s side).map OrderBookLevel.qty).sum) 0 := by
      rw [fillWalk_fst (sortedLevels s side) orderSize 0 (le_of_lt hpos) hqsorted, hsum]
    rw [hwalk]
    constructor
    · rintro ⟨_, _, h3⟩
      by_contra hge
      push_neg at hge
      have : orderSize - ((relevantLevels s side).map OrderBookLevel.qty).sum ≤ 0 := by
        linarith
      rw [max_eq_right this] at h3
      exact lt_irrefl 0 h3
    · intro hlt
      refine ⟨not_le.mpr hpos, hne, ?_⟩
      have : 0 < orderSize - ((relevantLevels s side).map OrderBookLevel.qty).sum := by
        linarith
      rw [max_eq_left (le_of_lt this)]
      exact this

theorem C5_witness :
    stC5.getEstimatedSlippage 10 Side.Buy = Except.error BookError.InsufficientLiquidity ↔
      ((relevantLevels stC5 Side.Buy).map OrderBookLevel.qty).sum < 10 :=
  (C5_slippage_error_conditions stC5 10 Side.Buy).2.2 (by norm_num)
    (by with_unfolding_all decide) (by with_unfolding_all decide)

/-! ### C1: the depth bound -/

lemma spliceRemove_front_length (l : List OrderBookLevel) (n : Int) :
    (spliceRemove l 0 n).length = l.length - (min (max n 0) (l.length : Int)).toNat := by
  simp only [spliceRemove, List.length_append, List.length_take, List.length_drop]
  split_ifs with h
  · omega
  · omega

lemma spliceRemove_back_length (l : List OrderBookLevel) (n : Int) (h1 : 0 < n)
    (h2 : n ≤ (l.length : Int) - 1) :
    (spliceRemove l ((l.length : Int) - n - 1) n).length = l.length - n.toNat := by
  simp only [spliceRemove, List.length_append, List.length_take, List.length_drop]
  split_ifs with h
  · omega
  · omega

lemma trimSideCount_top_length (b : List OrderBookLevel) (n : Int) :
    (trimSideCount b n true).length = b.length - (min (max n 0) (b.length : Int)).toNat := by
  by_cases hn : n ≤ 0
  · simp only [trimSideCount, if_pos hn]
    omega
  · simp only [trimSideCount, if_neg hn, if_pos rfl]
    exact spliceRemove_front_length b n

lemma trimSideCount_bottom_length (b : List OrderBookLevel) (n : Int)
    (h2 : n ≤ (b.length : Int) - 1) :
    (trimSideCount b n false).length = b.length - n.toNat := by
  by_cases hn : n ≤ 0
  · simp only [trimSideCount, if_pos hn]
    omega
  · simp only [trimSideCount, if_neg hn, Bool.false_eq_true, if_false]
    exact spliceRemove_back_length b n (by omega) h2

lemma countBuys_add_countSells (b : List OrderBookLevel) :
    countBuys b + countSells b = b.length := by
  induction b with
  | nil => rfl
  | cons x xs ih =>
    by_cases h : x.side = Side.Sell
    · simp [countBuys, countSells, List.filter_cons, h] at ih ⊢
      omega
    · simp [countBuys, countSells, List.filter_cons, h] at ih ⊢
      omega

lemma maxPerSide_pos (d : Int) (h : 1 ≤ d) : 1 ≤ maxPerSide d := by
  rw [maxPerSide, Int.fdiv_eq_ediv _ (by norm_num)]
  omega

lemma trimToMaxDepth_length_le (s : OrderBook) (h : 1 ≤ s.maxDepth) :
    ((s.trimToMaxDepth).book.length : Int) ≤
      max s.maxDepth (2 * maxPerSide s.maxDepth) := by
  simp only [OrderBook.trimToMaxDepth]
  split_ifs with hfit
  · exact le_max_of_le_left hfit
  · push_neg at hfit
    have hmps : 1 ≤ maxPerSide s.maxDepth := maxPerSide_pos s.maxDepth h
    have hBS : countBuys s.book + countSells s.book = s.book.length :=
      countBuys_add_countSells s.book
    have hslen : (sortBook s.book).length = s.book.length := sortBook_length s.book
    have hbt : ((countBuys s.book : Int) - maxPerSide s.maxDepth)
        ≤ ((sortBook s.book).length : Int) - 1 := by
      omega
    have h1 := trimSideCount_bottom_length (sortBook s.book)
      ((countBuys s.book : Int) - maxPerSide s.maxDepth) hbt
    have h2 := trimSideCount_top_length
      (trimSideCount (sortBook s.book)
        ((countBuys s.book : Int) - maxPerSide s.maxDepth) false)
      ((countSells s.book : Int) - maxPerSide s.maxDepth)
    simp only [h2, h1, hslen]
    omega

lemma maxPerSide_le (d : Int) (h : 1 ≤ d) :
    2 * maxPerSide d ≤ d + 1 ∧ (d % 2 = 0 → 2 * maxPerSide d ≤ d) := by
  rw [maxPerSide, Int.fdiv_eq_ediv _ (by norm_num)]
  omega

/-- The post-state book of a successful mutating call: trim then sort. -/
lemma applyCall_ok_book (s : OrderBook) (c : BookCall)
    (hok : (applyCall s c).2 = none) :
    ∃ x : OrderBook, x.maxDepth = s.maxDepth ∧
      (applyCall s c).1.book = sortBook x.trimToMaxDepth.book := by
  cases c with
  | snapshot data t =>
    by_cases hthrow : s.checkTimestampThrows t = true
    · simp [applyCall, OrderBook.handleSnapshot, hthrow] at hok
    · exact ⟨{ s with book := data }, rfl,
        by simp [applyCall, OrderBook.handleSnapshot, hthrow]⟩
  | delta d u i t =>
    by_cases hthrow : s.checkTimestampThrows t = true
    · simp [applyCall, OrderBook.handleDelta, hthrow] at hok
    · exact ⟨{ s with book := deltaBook s d u i }, rfl,
        by simp [applyCall, OrderBook.handleDelta, hthrow, deltaBook]⟩

/-- C1 amended: after every successful mutating call with maxDepth ≥ 1 the
number of stored levels is at most maxDepth + 1; when maxDepth is even the
original bound maxDepth itself holds.  (For odd maxDepth the bound maxDepth
is not attainable: both sides get trimmed to round(maxDepth / 2) =
(maxDepth + 1) / 2, which sums to maxDepth + 1.) -/
theorem C1_amended_depth_bound (s : OrderBook) (c : BookCall)
    (hmd : 1 ≤ s.maxDepth) (hok : (applyCall s c).2 = none) :
    (((applyCall s c).1.book.length : Int) ≤ s.maxDepth + 1) ∧
    (s.maxDepth % 2 = 0 → ((applyCall s c).1.book.length : Int) ≤ s.maxDepth) := by
  obtain ⟨x, hxd, hbook⟩ := applyCall_ok_book s c hok
  have hx : 1 ≤ x.maxDepth := hxd ▸ hmd
  have hlen : ((applyCall s c).1.book.length : Int) ≤
      max x.maxDepth (2 * maxPerSide x.maxDepth) := by
    rw [hbook, sortBook_length]
    exact trimToMaxDepth_length_le x hx
  obtain ⟨hb1, hb2⟩ := maxPerSide_le x.maxDepth hx
  constructor
  · rw [← hxd]
    refine le_trans hlen ?_
    exact max_le (by omega) hb1
  · intro heven
    rw [← hxd]
    refine le_trans hlen ?_
    exact max_le le_rfl (hb2 (by omega))

/-- C1 counterexample: with maxDepth 1 (odd) a successful snapshot of four
levels leaves 2 levels stored — both sides are trimmed to
round(1 / 2) = 1 level, so the depth bound maxDepth is exceeded. -/
theorem C1_counterexample :
    (mkState [] 1).maxDepth = 1 ∧
    ((mkState [] 1).handleSnapshot dataC1 1).2 = none ∧
    ((mkState [] 1).handleSnapshot dataC1 1).1.book.length = 2 := by
  with_unfolding_all decide

theorem C1_witness :
    ((applyCall (mkState [] 2) (BookCall.snapshot dataC1 1)).1.book.length : Int)
      ≤ (mkState [] 2).maxDepth + 1 :=
  (C1_amended_depth_bound (mkState [] 2) (BookCall.snapshot dataC1 1) (by decide)
    (by with_unfolding_all decide)).1

/-! ### C9: the two-level slippage example -/

/-- C9: on the book holding exactly the sell levels {100, qty 5} and
{101, qty 5}, a Buy of size 10 fills 5 at 100 and 5 at 101, giving
executionPrice 201/2 = 100.5; the reference best ask is 100, so
slippagePercent is 1/2 = 0.5 and slippageBasisPoints is 50 — all in exact
rational arithmetic. -/
theorem C9_slippage_across_levels :
    stC9.book.map (fun l => (l.price, l.qty, l.side))
      = [(101, 5, Side.Sell), (100, 5, Side.Sell)] ∧
    stC9.getBestAsk 0 = some 100 ∧
    stC9.getEstimatedSlippage 10 Side.Buy
      = Except.ok (some (SlippageResult.mk (201 / 2) (1 / 2) 50)) := by
  with_unfolding_all decide
